import Mathlib

/- Shallow embedding of the alx-poll application logic that the verified
properties speak about: the poll-edit form helpers of
src/lib/utils/poll-edit.ts, the poll-creation HTTP handler of
src/app/api/polls/route.ts, and the vote-submission HTTP handler.

Modelling conventions: JavaScript strings are Lean strings; a JavaScript
Date and an ISO timestamp string are both modelled by the instant they
denote, an integer timestamp (converting between them is the identity on
instants); a JavaScript number holding a display order or a count is
modelled by Int; optional or nullable fields are Option; functions whose
JavaScript source can read a property of an absent array element return
Option, with none on that error path. -/

/-- JavaScript whitespace test on the ASCII range, as String.prototype.trim
uses it: space, tab, line feed, carriage return, vertical tab, form feed. -/
def jsIsWs (c : Char) : Bool :=
  c = ' ' || c = '\t' || c = '\n' || c = '\r' || c = '\x0b' || c = '\x0c'

/-- Drop leading whitespace characters from a character list. -/
def dropWsLeft : List Char → List Char
  | [] => []
  | c :: cs => if jsIsWs c then dropWsLeft cs else c :: cs

/-- String.prototype.trim: remove leading and trailing whitespace. -/
def jsTrim (s : String) : String :=
  String.mk ((dropWsLeft (dropWsLeft s.data).reverse).reverse)

/-- Lower-case one character, ASCII range (the option texts the application
compares are ordinary text; this is the relevant fragment of
String.prototype.toLowerCase). -/
def jsLowerChar (c : Char) : Char :=
  if 65 ≤ c.toNat ∧ c.toNat ≤ 90 then Char.ofNat (c.toNat + 32) else c

/-- String.prototype.toLowerCase on the ASCII range. -/
def jsToLower (s : String) : String :=
  String.mk (s.data.map jsLowerChar)

/-- JavaScript truthiness of an optional string field: present and non-empty.
Used where the source tests a value such as option.id directly. -/
def idTruthy : Option String → Bool
  | none => false
  | some s => s != ""

/-- One row of poll_options as the edit page receives it
(interface EditPollOption of the shared types). -/
structure EditPollOption where
  id : String
  option_text : String
  option_order : Int
  votes_count : Int
deriving DecidableEq, Repr

/-- A persisted poll with its nested options as the edit page receives it
(interface EditPollData of the shared types). -/
structure EditPollData where
  id : String
  title : String
  description : Option String
  category : Option String
  is_active : Bool
  allow_multiple_votes : Bool
  is_anonymous : Bool
  expires_at : Option Int
  poll_options : List EditPollOption
  created_at : String
  updated_at : String
  created_by : String
  total_votes : Int
deriving DecidableEq, Repr

/-- One option of the edit form (interface EditPollOptionFormData): the
fields isNew and isDeleted model the tracking flags the source spells
with a leading underscore. Both flags are optional in the source and
absent means false; the embedding stores the resulting boolean. -/
structure EditPollOptionFormData where
  id : Option String
  option_text : String
  option_order : Int
  isNew : Bool
  isDeleted : Bool
deriving DecidableEq, Repr

/-- The edit form state (interface EditPollFormData). -/
structure EditPollFormData where
  title : String
  description : String
  category : String
  is_active : Bool
  allow_multiple_votes : Bool
  is_anonymous : Bool
  expires_at : Option Int
  options : List EditPollOptionFormData
deriving DecidableEq, Repr

/-- The poll-level update payload (interface UpdatePollData). -/
structure UpdatePollData where
  title : String
  description : Option String
  category : Option String
  is_active : Bool
  allow_multiple_votes : Bool
  is_anonymous : Bool
  expires_at : Option Int
deriving DecidableEq, Repr

/-- An entry of optionUpdates.toUpdate. -/
structure UpdateOptionData where
  id : String
  option_text : String
  option_order : Int
deriving DecidableEq, Repr

/-- An entry of optionUpdates.toCreate. -/
structure CreateOptionData where
  option_text : String
  option_order : Int
deriving DecidableEq, Repr

/-- The per-option operations editFormToUpdate separates out. -/
structure OptionUpdates where
  toCreate : List CreateOptionData
  toUpdate : List UpdateOptionData
  toDelete : List String
deriving DecidableEq, Repr

/-- The full return value of editFormToUpdate. -/
structure UpdatePayload where
  pollUpdate : UpdatePollData
  optionUpdates : OptionUpdates
deriving DecidableEq, Repr

/-- Stable insertion of an element into a sorted list: the new element lands
after every element the comparator places at or before it, which is what
keeps the sort stable. -/
def insertSorted {α : Type*} (le : α → α → Bool) (a : α) : List α → List α
  | [] => [a]
  | b :: bs => if le b a then b :: insertSorted le a bs else a :: b :: bs

/-- Left fold of stable insertion over the input list. -/
def stableSortAux {α : Type*} (le : α → α → Bool) : List α → List α → List α
  | acc, [] => acc
  | acc, x :: xs => stableSortAux le (insertSorted le x acc) xs

/-- Stable sort, the behaviour Array.prototype.sort guarantees for the
comparator the source passes (ascending option_order, ties kept in
input order). -/
def stableSort {α : Type*} (le : α → α → Bool) (l : List α) : List α :=
  stableSortAux le [] l

/-- Sorting of poll options by option_order, as pollToEditForm performs it. -/
def sortByOrder (l : List EditPollOption) : List EditPollOption :=
  stableSort (fun a b => a.option_order ≤ b.option_order) l

/-- pollToEditForm of src/lib/utils/poll-edit.ts: convert a persisted poll to
form state, mapping null description and category to the empty string,
sorting options by display order, and tagging every option as existing
and not deleted. -/
def pollToEditForm (poll : EditPollData) : EditPollFormData :=
  { title := poll.title
    description := poll.description.getD ""
    category := poll.category.getD ""
    is_active := poll.is_active
    allow_multiple_votes := poll.allow_multiple_votes
    is_anonymous := poll.is_anonymous
    expires_at := poll.expires_at
    options := (sortByOrder poll.poll_options).map fun o =>
      { id := some o.id
        option_text := o.option_text
        option_order := o.option_order
        isNew := false
        isDeleted := false } }

/-- editFormToUpdate of src/lib/utils/poll-edit.ts: sanitize the poll fields
(trimming text, turning an empty trimmed string into null for the optional
fields) and separate the options into create, update and delete
operations by their flags; an option needs a truthy id to be updated
or deleted. -/
def editFormToUpdate (formData : EditPollFormData) : UpdatePayload :=
  { pollUpdate :=
      { title := jsTrim formData.title
        description := if jsTrim formData.description = "" then none
          else some (jsTrim formData.description)
        category := if jsTrim formData.category = "" then none
          else some (jsTrim formData.category)
        is_active := formData.is_active
        allow_multiple_votes := formData.allow_multiple_votes
        is_anonymous := formData.is_anonymous
        expires_at := formData.expires_at }
    optionUpdates :=
      { toCreate := (formData.options.filter fun o => o.isNew && !o.isDeleted).map
          fun o => { option_text := jsTrim o.option_text, option_order := o.option_order }
        toUpdate := (formData.options.filter fun o =>
            !o.isNew && !o.isDeleted && idTruthy o.id).map
          fun o =>
            { id := o.id.getD ""
              option_text := jsTrim o.option_text
              option_order := o.option_order }
        toDelete := (formData.options.filter fun o => o.isDeleted && idTruthy o.id).map
          fun o => o.id.getD "" } }

/-- The order Math.max(0, ...orders) computes in addNewOption. -/
def jsMaxOrder (l : List EditPollOptionFormData) : Int :=
  (l.map fun o => o.option_order).foldl max 0

/-- addNewOption of src/lib/utils/poll-edit.ts: append a fresh option, one
past the highest existing order, flagged as new. -/
def addNewOption (formData : EditPollFormData) (optionText : String) : EditPollFormData :=
  { formData with options := formData.options ++
      [{ id := none
         option_text := optionText
         option_order := jsMaxOrder formData.options + 1
         isNew := true
         isDeleted := false }] }

/-- Array.prototype.splice removing one element at the given index; past the
end it removes nothing. -/
def spliceRemove {α : Type*} : List α → Nat → List α
  | [], _ => []
  | _ :: xs, 0 => xs
  | x :: xs, n + 1 => x :: spliceRemove xs n

/-- Array.prototype.splice inserting one element at the given index; an index
past the end appends at the end, as splice clamps it. -/
def spliceInsertAt {α : Type*} : List α → Nat → α → List α
  | l, 0, a => a :: l
  | [], _ + 1, a => [a]
  | x :: xs, n + 1, a => x :: spliceInsertAt xs n a

/-- removeOption of src/lib/utils/poll-edit.ts: a new option is spliced out,
an existing one only has its deletion flag set. Out of bounds the source
reads a property of an absent element, the embedding returns none. -/
def removeOption (formData : EditPollFormData) (index : Nat) : Option EditPollFormData :=
  match formData.options.get? index with
  | none => none
  | some o =>
    if o.isNew then
      some { formData with options := spliceRemove formData.options index }
    else
      some { formData with options := formData.options.set index { o with isDeleted := true } }

/-- The renumbering pass of reorderOptions: positions become orders counted
from the given start. -/
def renumberFrom (k : Int) : List EditPollOptionFormData → List EditPollOptionFormData
  | [] => []
  | o :: os => { o with option_order := k } :: renumberFrom (k + 1) os

/-- reorderOptions of src/lib/utils/poll-edit.ts: drop the deleted options,
splice the option at fromIndex out and back in at toIndex, then renumber
sequentially from 1. A fromIndex past the end leaves the source
destructuring an absent element, the embedding returns none. -/
def reorderOptions (formData : EditPollFormData) (fromIndex toIndex : Nat) :
    Option EditPollFormData :=
  let newOptions := formData.options.filter fun o => !o.isDeleted
  match newOptions.get? fromIndex with
  | none => none
  | some removed =>
    let reordered :=
      renumberFrom 1 (spliceInsertAt (spliceRemove newOptions fromIndex) toIndex removed)
    some { formData with options := reordered }

/-- The validation result of validateEditPollForm. -/
structure ValidationResult where
  isValid : Bool
  errors : List String
deriving DecidableEq, Repr

/-- The active options of a form state: not flagged deleted and non-empty
after trimming; the population the validator counts and deduplicates. -/
def activeOptions (formData : EditPollFormData) : List EditPollOptionFormData :=
  formData.options.filter fun o => !o.isDeleted && jsTrim o.option_text != ""

/-- validateEditPollForm of src/lib/utils/poll-edit.ts, with the current time
an explicit argument where the source reads the clock. The duplicate check
compares the size of a Set of the lower-cased trimmed texts with the list
length; dedup models the Set size. -/
def validateEditPollForm (now : Int) (formData : EditPollFormData) : ValidationResult :=
  let titleErrors := if jsTrim formData.title = "" then ["Poll title is required"] else []
  let countErrors :=
    if (activeOptions formData).length < 2 then ["At least 2 options are required"] else []
  let optionTexts := (activeOptions formData).map fun o => jsToLower (jsTrim o.option_text)
  let dupErrors :=
    if optionTexts.length ≠ optionTexts.dedup.length then ["Duplicate options are not allowed"]
    else []
  let expiryErrors := match formData.expires_at with
    | none => []
    | some t => if t ≤ now then ["Expiry date must be in the future"] else []
  let errors := titleErrors ++ countErrors ++ dupErrors ++ expiryErrors
  { isValid := errors.length == 0, errors := errors }

/-- A write the poll-creation handler can issue against the backing store. -/
inductive DbWrite where
  | insertPoll
  | insertOptions
  | deletePoll
deriving DecidableEq, Repr

/-- The request body of the poll-creation handler, the fields its control
flow reads. -/
structure CreatePollBody where
  title : String
  options : List String
deriving DecidableEq, Repr

/-- The backend outcomes the poll-creation handler can observe, one flag per
fallible call in source order. -/
structure PollsBackend where
  authOk : Bool
  pollInsertFails : Bool
  optionsInsertFails : Bool
  finalFetchFails : Bool
deriving DecidableEq, Repr

/-- What the poll-creation handler did: the HTTP status it answered and the
writes it issued, in order. -/
structure HandlerResult where
  status : Nat
  writes : List DbWrite
deriving DecidableEq, Repr

/-- The POST handler of src/app/api/polls/route.ts: authentication check,
request validation, poll insert, options insert with a cleanup delete of
the just-created poll when the options insert fails, final fetch of the
complete poll. Reads are not writes and are not recorded. -/
def postPollsHandler (b : PollsBackend) (body : CreatePollBody) : HandlerResult :=
  if !b.authOk then { status := 401, writes := [] }
  else if body.title = "" || body.options.length < 2 then { status := 400, writes := [] }
  else
    let validOptions := body.options.filter fun s => (jsTrim s).length > 0
    if validOptions.length < 2 then { status := 400, writes := [] }
    else if b.pollInsertFails then { status := 500, writes := [DbWrite.insertPoll] }
    else if b.optionsInsertFails then
      { status := 500
        writes := [DbWrite.insertPoll, DbWrite.insertOptions, DbWrite.deletePoll] }
    else if b.finalFetchFails then
      { status := 500, writes := [DbWrite.insertPoll, DbWrite.insertOptions] }
    else { status := 201, writes := [DbWrite.insertPoll, DbWrite.insertOptions] }

/-- The poll row the vote-submission handler reads, the fields its control
flow uses. -/
structure VotePoll where
  is_active : Bool
  expires_at : Option Int
  allow_multiple_votes : Bool
  is_anonymous : Bool
  option_ids : List String
deriving DecidableEq, Repr

/-- Outcome of the poll fetch at the top of the vote-submission handler:
not found (code PGRST116), another failure, or the row. -/
inductive PollFetchResult where
  | missing
  | failure
  | found (poll : VotePoll)
deriving DecidableEq, Repr

/-- The backend outcomes the vote-submission handler can observe, in source
order: authentication, the poll fetch, the existing-votes query (its
failure flag and the vote ids it returns for this user and poll), the
votes insert, the final fetch. -/
structure VoteBackend where
  authOk : Bool
  pollFetch : PollFetchResult
  voteCheckFails : Bool
  existingVoteIds : List String
  voteInsertFails : Bool
  finalFetchFails : Bool
deriving DecidableEq, Repr

/-- An HTTP response of the vote-submission handler: status and the JSON
message (error or success). -/
structure VoteResponse where
  status : Nat
  message : String
deriving DecidableEq, Repr

/-- Expiry test of the vote-submission handler: a set expiry strictly in the
past fails it. -/
def pollExpired (e : Option Int) (now : Int) : Bool :=
  match e with
  | none => false
  | some t => t < now

/-- The vote-submission POST handler: authentication, payload validation,
poll fetch, active and expiry checks, the existing-votes duplicate check,
option validation, the multiple-votes rule, the votes insert, and the
final fetch. The vote-count recalculation loop issues writes but ignores
their errors and never changes the response, so it is not part of the
response model. -/
def votePostHandler (b : VoteBackend) (now : Int) (optionIds : List String) : VoteResponse :=
  if !b.authOk then { status := 401, message := "Unauthorized" }
  else if optionIds.length = 0 then
    { status := 400, message := "At least one option must be selected" }
  else match b.pollFetch with
  | PollFetchResult.missing => { status := 404, message := "Poll not found" }
  | PollFetchResult.failure => { status := 500, message := "Failed to fetch poll" }
  | PollFetchResult.found poll =>
    if !poll.is_active then { status := 400, message := "Poll is not active" }
    else if pollExpired poll.expires_at now then { status := 400, message := "Poll has expired" }
    else if b.voteCheckFails then
      { status := 500, message := "Failed to check voting status" }
    else if b.existingVoteIds.length > 0 then
      { status := 400, message := "You have already voted in this poll" }
    else
      let invalidOptions := optionIds.filter fun oid => !(poll.option_ids.contains oid)
      if invalidOptions.length > 0 then { status := 400, message := "Invalid option selected" }
      else if !poll.allow_multiple_votes && optionIds.length > 1 then
        { status := 400, message := "This poll only allows one vote per user" }
      else if b.voteInsertFails then { status := 500, message := "Failed to submit vote" }
      else if b.finalFetchFails then
        { status := 500, message := "Vote submitted but failed to fetch updated data" }
      else { status := 200, message := "Vote submitted successfully" }

/-- List with the element at position i moved to position j, written with
take and drop: the specification-side description of one drag-and-drop
move, to be compared with the splice-based computation of the source. -/
def movedTo {α : Type*} (l : List α) (i j : Nat) : List α :=
  match l.get? i with
  | none => l
  | some a =>
    if i ≤ j then
      l.take i ++ ((l.drop (i + 1)).take (j - i) ++ a :: l.drop (j + 1))
    else
      l.take j ++ a :: ((l.drop j).take (i - j) ++ l.drop (i + 1))

/-- Identity of a form option apart from its display order: id, text and the
two tracking flags. -/
def optionContent (o : EditPollOptionFormData) : Option String × String × Bool × Bool :=
  (o.id, o.option_text, o.isNew, o.isDeleted)

/-- Orders counted k, k+1, ... for n positions: the shape of a sequentially
numbered option list. -/
def seqOrders (k : Int) : Nat → List Int
  | 0 => []
  | n + 1 => k :: seqOrders (k + 1) n

/-- A form option persisted under id opt-a. -/
def optA : EditPollOptionFormData :=
  { id := some "opt-a", option_text := "Alpha", option_order := 1,
    isNew := false, isDeleted := false }

/-- A form option persisted under id opt-b. -/
def optB : EditPollOptionFormData :=
  { id := some "opt-b", option_text := "Beta", option_order := 2,
    isNew := false, isDeleted := false }

/-- An existing form option already flagged for deletion. -/
def optDel : EditPollOptionFormData :=
  { id := some "opt-c", option_text := "Gamma", option_order := 3,
    isNew := false, isDeleted := true }

/-- A concrete form state: two live options and one deletion intent. -/
def demoForm : EditPollFormData :=
  { title := "Demo", description := "", category := "", is_active := true,
    allow_multiple_votes := false, is_anonymous := false, expires_at := none,
    options := [optA, optB, optDel] }

/-- What reordering demoForm from index 0 to index 1 produces: the two live
options swapped and renumbered, the deletion intent gone. -/
def demoReordered : EditPollFormData :=
  { demoForm with options :=
      [{ optB with option_order := 1 }, { optA with option_order := 2 }] }

/-- A persisted poll whose title has outer whitespace and whose option id is
the empty string. -/
def c1Poll : EditPollData :=
  { id := "poll-1", title := " a ", description := none, category := none,
    is_active := true, allow_multiple_votes := false, is_anonymous := false,
    expires_at := none,
    poll_options := [{ id := "", option_text := "x", option_order := 1, votes_count := 0 }],
    created_at := "", updated_at := "", created_by := "u1", total_votes := 0 }

/-- A persisted poll with trimmed texts, non-empty option ids, and options
stored out of display order. -/
def c1GoodPoll : EditPollData :=
  { id := "poll-2", title := "Lunch spot", description := some "Where to eat",
    category := none, is_active := true, allow_multiple_votes := false,
    is_anonymous := true, expires_at := some 1700000000,
    poll_options :=
      [{ id := "o2", option_text := "Sushi", option_order := 2, votes_count := 0 },
       { id := "o1", option_text := "Pizza", option_order := 1, votes_count := 3 }],
    created_at := "", updated_at := "", created_by := "u1", total_votes := 3 }

/-- Backend outcomes where only the options insert fails. -/
def c8Backend : PollsBackend :=
  { authOk := true, pollInsertFails := false, optionsInsertFails := true,
    finalFetchFails := false }

/-- A valid poll-creation request body. -/
def c8Body : CreatePollBody :=
  { title := "Best language", options := ["Lean", "Rust"] }

/-- An active poll open for voting, with two options. -/
def c9Poll : VotePoll :=
  { is_active := true, expires_at := none, allow_multiple_votes := false,
    is_anonymous := false, option_ids := ["o1", "o2"] }

/-- Backend outcomes where the requesting user already has one vote recorded
for the poll and everything else succeeds. -/
def c9Backend : VoteBackend :=
  { authOk := true, pollFetch := PollFetchResult.found c9Poll,
    voteCheckFails := false, existingVoteIds := ["v1"],
    voteInsertFails := false, finalFetchFails := false }

/-- Null and the empty string identified: the value of an optional text
field that the round trip preserves. -/
def normalizeOpt : Option String → Option String
  | none => none
  | some s => if s = "" then none else some s

/-- Membership in a conditional one-message error list. -/
theorem mem_errIf {c : Prop} [Decidable c] (s t : String) :
    s ∈ (if c then [t] else []) ↔ (s = t ∧ c) := by
  split <;> simp_all

/-- A deduplicated list has the length of the original exactly when the
original already had no duplicates; this is how the Set-size comparison of
the validator reads. -/
theorem dedup_length_eq_iff {α : Type*} [DecidableEq α] (l : List α) :
    l.dedup.length = l.length ↔ l.Nodup := by
  constructor
  · intro h
    exact List.dedup_eq_self.mp ((List.dedup_sublist l).eq_of_length h)
  · intro h
    rw [List.dedup_eq_self.mpr h]

/-- Where each validation message can come from: membership in the error
list of validateEditPollForm, message by message. -/
theorem mem_validate_errors (now : Int) (f : EditPollFormData) (s : String) :
    s ∈ (validateEditPollForm now f).errors ↔
      (s = "Poll title is required" ∧ jsTrim f.title = "") ∨
      (s = "At least 2 options are required" ∧ (activeOptions f).length < 2) ∨
      (s = "Duplicate options are not allowed" ∧
        ((activeOptions f).map fun o => jsToLower (jsTrim o.option_text)).length ≠
          ((activeOptions f).map fun o => jsToLower (jsTrim o.option_text)).dedup.length) ∨
      (s = "Expiry date must be in the future" ∧ ∃ t, f.expires_at = some t ∧ t ≤ now) := by
  simp only [validateEditPollForm]
  cases hx : f.expires_at with
  | none =>
    simp [List.mem_append, mem_errIf]
    tauto
  | some t =>
    simp only [List.mem_append, mem_errIf, Option.some.injEq]
    constructor
    · rintro (((h | h) | h) | h)
      · exact Or.inl h
      · exact Or.inr (Or.inl h)
      · exact Or.inr (Or.inr (Or.inl h))
      · exact Or.inr (Or.inr (Or.inr ⟨h.1, t, rfl, h.2⟩))
    · rintro (h | h | h | ⟨h1, u, rfl, h2⟩)
      · exact Or.inl (Or.inl (Or.inl h))
      · exact Or.inl (Or.inl (Or.inr h))
      · exact Or.inl (Or.inr h)
      · exact Or.inr ⟨h1, h2⟩

/-- Any reported message makes the validation result invalid. -/
theorem isValid_false_of_mem {now : Int} {f : EditPollFormData} {s : String}
    (h : s ∈ (validateEditPollForm now f).errors) :
    (validateEditPollForm now f).isValid = false := by
  have hv : (validateEditPollForm now f).isValid =
      ((validateEditPollForm now f).errors.length == 0) := rfl
  rw [hv, beq_eq_false_iff_ne]
  intro h0
  rw [List.length_eq_zero] at h0
  exact absurd (h0 ▸ h) (List.not_mem_nil s)

/-- C5: validateEditPollForm reports the minimum-option error exactly when
fewer than two options are active, an option being active when it is not
flagged deleted and its text is non-empty after trimming; the error makes
the form invalid. -/
theorem validate_min_active_options (now : Int) (f : EditPollFormData) :
    ("At least 2 options are required" ∈ (validateEditPollForm now f).errors ↔
      (activeOptions f).length < 2) ∧
    ((activeOptions f).length < 2 → (validateEditPollForm now f).isValid = false) := by
  constructor
  · rw [mem_validate_errors]
    simp
  · intro h
    have hm : "At least 2 options are required" ∈ (validateEditPollForm now f).errors := by
      rw [mem_validate_errors]
      simp [h]
    exact isValid_false_of_mem hm

/-- C7: validateEditPollForm reports the expiry error exactly when an expiry
is set and is not strictly in the future; no expiry, no expiry error. -/
theorem validate_expiry_future (now : Int) (f : EditPollFormData) :
    "Expiry date must be in the future" ∈ (validateEditPollForm now f).errors ↔
      ∃ t, f.expires_at = some t ∧ t ≤ now := by
  rw [mem_validate_errors]
  simp

/-- Duplicate-error membership reduced to the comparison list not being
duplicate-free. -/
theorem validate_dup_mem_iff_not_nodup (now : Int) (f : EditPollFormData) :
    "Duplicate options are not allowed" ∈ (validateEditPollForm now f).errors ↔
      ¬ ((activeOptions f).map fun o => jsToLower (jsTrim o.option_text)).Nodup := by
  rw [mem_validate_errors]
  constructor
  · rintro (h | h | h | h)
    · simpa using h.1
    · simpa using h.1
    · intro hnd
      exact h.2 ((dedup_length_eq_iff _).mpr hnd).symm
    · simpa using h.1
  · intro hnd
    refine Or.inr (Or.inr (Or.inl ⟨rfl, ?_⟩))
    intro hlen
    exact hnd ((dedup_length_eq_iff _).mp hlen.symm)

/-- C6: the duplicate-option error appears exactly when two distinct active
options agree on their option_text after trimming and lower-casing;
deleted or empty options never contribute to the comparison. -/
theorem validate_duplicate_options (now : Int) (f : EditPollFormData) :
    "Duplicate options are not allowed" ∈ (validateEditPollForm now f).errors ↔
      ∃ i j : Fin (activeOptions f).length, i ≠ j ∧
        jsToLower (jsTrim ((activeOptions f).get i).option_text) =
        jsToLower (jsTrim ((activeOptions f).get j).option_text) := by
  rw [validate_dup_mem_iff_not_nodup, List.nodup_iff_injective_get,
    Function.not_injective_iff]
  constructor
  · rintro ⟨a, b, hab, hne⟩
    refine ⟨⟨a.val, by simpa using a.isLt⟩, ⟨b.val, by simpa using b.isLt⟩, ?_, ?_⟩
    · intro h
      apply hne
      apply Fin.ext
      simpa using congrArg Fin.val h
    · simp only [List.get_map] at hab
      exact hab
  · rintro ⟨i, j, hij, heq⟩
    refine ⟨⟨i.val, by simpa using i.isLt⟩, ⟨j.val, by simpa using j.isLt⟩, ?_, ?_⟩
    · simp only [List.get_map]
      exact heq
    · intro h
      apply hij
      apply Fin.ext
      simpa using congrArg Fin.val h

/-- Splicing one element out is taking the prefix and dropping past the
element. -/
theorem spliceRemove_eq_take_drop {α : Type*} (l : List α) (i : Nat) :
    spliceRemove l i = l.take i ++ l.drop (i + 1) := by
  induction l generalizing i with
  | nil => simp [spliceRemove]
  | cons x xs ih =>
    cases i with
    | zero => simp [spliceRemove]
    | succ n => simp [spliceRemove, ih]

/-- Splicing one element in is taking the prefix, the element, and the rest. -/
theorem spliceInsertAt_eq_take_cons_drop {α : Type*} (l : List α) (j : Nat) (a : α) :
    spliceInsertAt l j a = l.take j ++ a :: l.drop j := by
  induction l generalizing j with
  | nil => cases j <;> simp [spliceInsertAt]
  | cons x xs ih => cases j <;> simp [spliceInsertAt, ih]

/-- C10: removeOption fails exactly out of bounds, and in bounds it splices
a new option out while an existing option only has its deletion flag set,
everything else unchanged. -/
theorem removeOption_spec (f : EditPollFormData) (i : Nat) :
    (removeOption f i = none ↔ f.options.length ≤ i) ∧
    (∀ hi : i < f.options.length,
      ∃ g, removeOption f i = some g ∧
        g.title = f.title ∧ g.description = f.description ∧ g.category = f.category ∧
        g.is_active = f.is_active ∧ g.allow_multiple_votes = f.allow_multiple_votes ∧
        g.is_anonymous = f.is_anonymous ∧ g.expires_at = f.expires_at ∧
        ((f.options.get ⟨i, hi⟩).isNew = true →
          g.options = f.options.take i ++ f.options.drop (i + 1)) ∧
        ((f.options.get ⟨i, hi⟩).isNew = false →
          g.options.length = f.options.length ∧
          g.options.get? i = some { f.options.get ⟨i, hi⟩ with isDeleted := true } ∧
          ∀ k : Nat, k ≠ i → g.options.get? k = f.options.get? k)) := by
  constructor
  · unfold removeOption
    cases h : f.options.get? i with
    | none =>
      rw [List.get?_eq_none] at h
      simp [h]
    | some o =>
      have hlt : i < f.options.length := by
        rcases List.get?_eq_some.mp h with ⟨hw, -⟩
        exact hw
      constructor
      · intro habs
        split at habs
        · simp_all
        · split at habs <;> simp_all
      · intro hle
        exact absurd hle (by omega)
  · intro hi
    have hg : f.options.get? i = some (f.options.get ⟨i, hi⟩) := List.get?_eq_get hi
    simp only [removeOption, hg, List.get_eq_getElem]
    by_cases hnew : f.options[i].isNew = true
    · refine ⟨{ f with options := spliceRemove f.options i },
        ?_, rfl, rfl, rfl, rfl, rfl, rfl, rfl, ?_, ?_⟩
      · rw [if_pos hnew]
      · intro _
        exact spliceRemove_eq_take_drop f.options i
      · intro habs
        rw [habs] at hnew
        exact absurd hnew (by simp)
    · refine ⟨{ f with options :=
          f.options.set i { f.options[i] with isDeleted := true } },
        ?_, rfl, rfl, rfl, rfl, rfl, rfl, rfl, ?_, ?_⟩
      · rw [if_neg hnew]
      · intro habs
        exact absurd habs hnew
      · intro _
        refine ⟨by simp, ?_, ?_⟩
        · rw [List.get?_set_eq, hg]
          simp
        · intro k hk
          exact List.get?_set_ne _ f.options (Ne.symm hk)

/-- C8 counterexample: with a valid authenticated request, a successful poll
insert and a failing options insert, the poll-creation handler issues a
compensating write, deleting the poll row it just created, before
answering 500. -/
theorem postPollsHandler_compensates :
    DbWrite.deletePoll ∈ (postPollsHandler c8Backend c8Body).writes ∧
    (postPollsHandler c8Backend c8Body).status = 500 := by
  decide

/-- C8 (amended): the poll-creation handler issues its one compensating
write, the delete of the just-inserted poll row, exactly when the request
is authenticated and valid, the poll insert succeeds and the options
insert fails; the handler then answers 500 with exactly the write trace
insert poll, insert options, delete poll. -/
theorem postPollsHandler_compensation (b : PollsBackend) (body : CreatePollBody) :
    (DbWrite.deletePoll ∈ (postPollsHandler b body).writes ↔
      (b.authOk = true ∧ body.title ≠ "" ∧ 2 ≤ body.options.length ∧
        2 ≤ (body.options.filter fun s => (jsTrim s).length > 0).length ∧
        b.pollInsertFails = false ∧ b.optionsInsertFails = true)) ∧
    (DbWrite.deletePoll ∈ (postPollsHandler b body).writes →
      (postPollsHandler b body).writes =
        [DbWrite.insertPoll, DbWrite.insertOptions, DbWrite.deletePoll] ∧
      (postPollsHandler b body).status = 500) := by
  simp only [postPollsHandler]
  split_ifs with h1 h2 h3 h4 h5 h6 <;> simp_all
  intro ht hlen hfilter hpoll
  rcases h2 with h | h
  · exact absurd h ht
  · exact absurd hlen (by omega)

/-- C9 counterexample: with the user holding one recorded vote for the poll,
the vote-submission handler itself rejects the request with 400 and the
already-voted message, before any backend constraint is involved. -/
theorem votePostHandler_rejects_duplicate :
    votePostHandler c9Backend 0 ["o1"] =
      { status := 400, message := "You have already voted in this poll" } := by
  decide

set_option maxHeartbeats 1000000 in
/-- C9 (amended): the vote-submission handler enforces duplicate-vote
prevention in application code: it answers 400 with the already-voted
message exactly when the request is authenticated and non-empty, the poll
is found, active and unexpired, the existing-votes query succeeds, and
that query returns at least one vote of the user for this poll. -/
theorem votePostHandler_duplicate_check (b : VoteBackend) (now : Int)
    (optionIds : List String) :
    votePostHandler b now optionIds =
        { status := 400, message := "You have already voted in this poll" } ↔
      (b.authOk = true ∧ optionIds ≠ [] ∧
        (∃ p, b.pollFetch = PollFetchResult.found p ∧ p.is_active = true ∧
          pollExpired p.expires_at now = false) ∧
        b.voteCheckFails = false ∧ b.existingVoteIds ≠ []) := by
  cases hp : b.pollFetch with
  | missing =>
    simp only [votePostHandler, hp]
    split_ifs <;> simp_all
  | failure =>
    simp only [votePostHandler, hp]
    split_ifs <;> simp_all
  | found poll =>
    simp only [votePostHandler, hp]
    split_ifs <;> simp_all [List.length_pos]

/-- Length after splicing one element out, in bounds. -/
theorem spliceRemove_length {α : Type*} (l : List α) (i : Nat) (hi : i < l.length) :
    (spliceRemove l i).length = l.length - 1 := by
  rw [spliceRemove_eq_take_drop]
  simp only [List.length_append, List.length_take, List.length_drop]
  omega

/-- Length after splicing one element in. -/
theorem spliceInsertAt_length {α : Type*} (l : List α) (j : Nat) (a : α) :
    (spliceInsertAt l j a).length = l.length + 1 := by
  rw [spliceInsertAt_eq_take_cons_drop]
  simp only [List.length_append, List.length_take, List.length_cons, List.length_drop]
  omega

/-- Splice removal keeps only elements of the original list. -/
theorem mem_of_mem_spliceRemove {α : Type*} {l : List α} {i : Nat} {x : α}
    (h : x ∈ spliceRemove l i) : x ∈ l := by
  rw [spliceRemove_eq_take_drop] at h
  rcases List.mem_append.mp h with h | h
  · exact (List.take_subset _ _) h
  · exact (List.drop_subset _ _) h

/-- Splice insertion adds only the inserted element. -/
theorem mem_of_mem_spliceInsertAt {α : Type*} {l : List α} {i : Nat} {a x : α}
    (h : x ∈ spliceInsertAt l i a) : x = a ∨ x ∈ l := by
  rw [spliceInsertAt_eq_take_cons_drop] at h
  rcases List.mem_append.mp h with h | h
  · exact Or.inr ((List.take_subset _ _) h)
  · rcases List.mem_cons.mp h with h | h
    · exact Or.inl h
    · exact Or.inr ((List.drop_subset _ _) h)

/-- The move of one element, computed by the two splices of the source,
agrees with the take and drop description movedTo. -/
theorem splice_move_eq_movedTo {α : Type*} (l : List α) (i j : Nat) (a : α)
    (ha : l.get? i = some a) (hj : j < l.length) :
    spliceInsertAt (spliceRemove l i) j a = movedTo l i j := by
  have hi : i < l.length := by
    rcases List.get?_eq_some.mp ha with ⟨hw, -⟩
    exact hw
  rw [spliceRemove_eq_take_drop, spliceInsertAt_eq_take_cons_drop]
  simp only [movedTo, ha]
  by_cases hij : i ≤ j
  · rw [if_pos hij]
    rw [List.take_append_eq_append_take, List.drop_append_eq_append_drop,
      List.take_take, List.length_take]
    have h1 : j ⊓ i = i := by omega
    have h2 : i ⊓ l.length = i := by omega
    rw [h1, h2]
    rw [List.drop_eq_nil_of_le (show (l.take i).length ≤ j by
      simp only [List.length_take]; omega)]
    rw [List.drop_drop]
    have h3 : i + 1 + (j - i) = j + 1 := by omega
    rw [h3]
    simp
  · rw [if_neg hij]
    rw [List.take_append_eq_append_take, List.drop_append_eq_append_drop,
      List.take_take, List.length_take]
    have h1 : j ⊓ i = j := by omega
    have h2 : i ⊓ l.length = i := by omega
    rw [h1, h2]
    have h3 : j - i = 0 := by omega
    rw [h3]
    rw [List.drop_take]
    simp

/-- Renumbering does not change anything but the orders. -/
theorem renumberFrom_map_content (k : Int) (l : List EditPollOptionFormData) :
    (renumberFrom k l).map optionContent = l.map optionContent := by
  induction l generalizing k with
  | nil => rfl
  | cons o os ih => simp [renumberFrom, optionContent, ih]

/-- Renumbering writes consecutive orders from the start value. -/
theorem renumberFrom_orders (k : Int) (l : List EditPollOptionFormData) :
    (renumberFrom k l).map (fun o => o.option_order) = seqOrders k l.length := by
  induction l generalizing k with
  | nil => rfl
  | cons o os ih => simp [renumberFrom, seqOrders, ih]

/-- Every option of a renumbered list carries the deletion flag of an option
of the original list. -/
theorem isDeleted_of_mem_renumberFrom {k : Int} {l : List EditPollOptionFormData}
    {o : EditPollOptionFormData} (h : o ∈ renumberFrom k l) :
    ∃ p ∈ l, o.isDeleted = p.isDeleted := by
  induction l generalizing k with
  | nil => simp [renumberFrom] at h
  | cons p ps ih =>
    simp only [renumberFrom, List.mem_cons] at h
    rcases h with h | h
    · exact ⟨p, List.mem_cons_self p ps, by rw [h]⟩
    · rcases ih h with ⟨q, hq, he⟩
      exact ⟨q, List.mem_cons_of_mem _ hq, he⟩

/-- C2: in bounds, reorderOptions succeeds and returns a form state whose
options are exactly the non-deleted options of the input with the element
at fromIndex moved to toIndex (content compared order-blind), and whose
order values are sequentially 1, 2, 3, ... in list order. -/
theorem reorderOptions_spec (f : EditPollFormData) (i j : Nat)
    (hi : i < (f.options.filter fun o => !o.isDeleted).length)
    (hj : j < (f.options.filter fun o => !o.isDeleted).length) :
    ∃ g, reorderOptions f i j = some g ∧
      g.options.map optionContent =
        (movedTo (f.options.filter fun o => !o.isDeleted) i j).map optionContent ∧
      (g.options.map fun o => o.option_order) =
        seqOrders 1 (f.options.filter fun o => !o.isDeleted).length ∧
      g.title = f.title ∧ g.description = f.description ∧ g.category = f.category ∧
      g.is_active = f.is_active ∧ g.allow_multiple_votes = f.allow_multiple_votes ∧
      g.is_anonymous = f.is_anonymous ∧ g.expires_at = f.expires_at := by
  have hg : (f.options.filter fun o => !o.isDeleted).get? i =
      some ((f.options.filter fun o => !o.isDeleted).get ⟨i, hi⟩) := List.get?_eq_get hi
  have hsome : reorderOptions f i j = some { f with options := renumberFrom 1 (spliceInsertAt (spliceRemove (f.options.filter fun o => !o.isDeleted) i) j ((f.options.filter fun o => !o.isDeleted).get ⟨i, hi⟩)) } := by
    simp only [reorderOptions, hg]
  refine ⟨_, hsome, ?_, ?_, rfl, rfl, rfl, rfl, rfl, rfl, rfl⟩
  · dsimp only
    rw [renumberFrom_map_content,
      splice_move_eq_movedTo (f.options.filter fun o => !o.isDeleted) i j _ hg hj]
  · dsimp only
    rw [renumberFrom_orders]
    congr 1
    rw [spliceInsertAt_length, spliceRemove_length _ i hi]
    omega

/-- C3: once a form state holds a recorded deletion intent, any successful
reorder drops the deleted options outright: none survives in the result,
and converting the result yields an empty toDelete where converting the
input did not. -/
theorem reorderOptions_drops_deletions (f : EditPollFormData) (i j : Nat)
    (g : EditPollFormData)
    (hdel : ∃ o ∈ f.options, o.isNew = false ∧ o.isDeleted = true ∧ idTruthy o.id = true)
    (hr : reorderOptions f i j = some g) :
    (editFormToUpdate f).optionUpdates.toDelete ≠ [] ∧
    (∀ o ∈ g.options, o.isDeleted = false) ∧
    (editFormToUpdate g).optionUpdates.toDelete = [] := by
  obtain ⟨d, hd, hdnew, hddel, hdid⟩ := hdel
  have htd : (editFormToUpdate f).optionUpdates.toDelete ≠ [] := by
    have hmem : d ∈ f.options.filter fun o => o.isDeleted && idTruthy o.id :=
      List.mem_filter.mpr ⟨hd, by simp [hddel, hdid]⟩
    exact List.ne_nil_of_mem (List.mem_map_of_mem _ hmem)
  have hnodel : ∀ o ∈ g.options, o.isDeleted = false := by
    simp only [reorderOptions] at hr
    cases hgi : (f.options.filter fun o => !o.isDeleted).get? i with
    | none =>
      simp only [hgi] at hr
      exact absurd hr (by simp)
    | some a =>
      simp only [hgi] at hr
      have hga : g = { f with options := renumberFrom 1 (spliceInsertAt (spliceRemove (f.options.filter fun o => !o.isDeleted) i) j a) } :=
        (Option.some.inj hr).symm
      subst hga
      intro o ho
      rcases isDeleted_of_mem_renumberFrom ho with ⟨p, hp, he⟩
      rcases mem_of_mem_spliceInsertAt hp with rfl | hp2
      · have haL : p ∈ f.options.filter fun o => !o.isDeleted := List.get?_mem hgi
        have hflag := (List.mem_filter.mp haL).2
        rw [he]
        simpa using hflag
      · have hpL : p ∈ f.options.filter fun o => !o.isDeleted :=
          mem_of_mem_spliceRemove hp2
        have hflag := (List.mem_filter.mp hpL).2
        rw [he]
        simpa using hflag
  refine ⟨htd, hnodel, ?_⟩
  have hfe : (g.options.filter fun o => o.isDeleted && idTruthy o.id) = [] := by
    rw [List.filter_eq_nil]
    intro o ho
    simp [hnodel o ho]
  show ((g.options.filter fun o => o.isDeleted && idTruthy o.id).map
    fun o => o.id.getD "") = []
  rw [hfe]
  rfl

/-- Renumbering keeps the length. -/
theorem renumberFrom_length (k : Int) (l : List EditPollOptionFormData) :
    (renumberFrom k l).length = l.length := by
  induction l generalizing k with
  | nil => rfl
  | cons o os ih => simp [renumberFrom, ih]

/-- Inversion of a successful reorder: the element at fromIndex of the
non-deleted options exists and the result is the renumbered double splice. -/
theorem reorderOptions_inv (f : EditPollFormData) (i j : Nat) (g : EditPollFormData)
    (hr : reorderOptions f i j = some g) :
    ∃ a, (f.options.filter fun o => !o.isDeleted).get? i = some a ∧
      g.options = renumberFrom 1 (spliceInsertAt (spliceRemove (f.options.filter fun o => !o.isDeleted) i) j a) := by
  simp only [reorderOptions] at hr
  cases hgi : (f.options.filter fun o => !o.isDeleted).get? i with
  | none =>
    simp only [hgi] at hr
    exact absurd hr (by simp)
  | some a =>
    simp only [hgi] at hr
    refine ⟨a, rfl, ?_⟩
    rw [← Option.some.inj hr]

/-- No deletion flag survives a successful reorder. -/
theorem reordered_no_deleted (f : EditPollFormData) (i j : Nat) (g : EditPollFormData)
    (hr : reorderOptions f i j = some g) : ∀ o ∈ g.options, o.isDeleted = false := by
  obtain ⟨a, hgi, hopts⟩ := reorderOptions_inv f i j g hr
  intro o ho
  rw [hopts] at ho
  rcases isDeleted_of_mem_renumberFrom ho with ⟨p, hp, he⟩
  rcases mem_of_mem_spliceInsertAt hp with rfl | hp2
  · have hflag := (List.mem_filter.mp (List.get?_mem hgi)).2
    rw [he]
    simpa using hflag
  · have hflag := (List.mem_filter.mp (mem_of_mem_spliceRemove hp2)).2
    rw [he]
    simpa using hflag

/-- The starting value is a lower bound of a maximum fold. -/
theorem le_foldl_max : ∀ (l : List Int) (c : Int), c ≤ l.foldl max c
  | [], c => le_refl c
  | a :: as, c => by
    simp only [List.foldl_cons]
    exact le_trans (le_max_left c a) (le_foldl_max as (max c a))

/-- A maximum fold stays below any common upper bound. -/
theorem foldl_max_le : ∀ (l : List Int) (c b : Int), c ≤ b → (∀ x ∈ l, x ≤ b) →
    l.foldl max c ≤ b
  | [], _, _, hc, _ => hc
  | a :: as, c, b, hc, hl => by
    simp only [List.foldl_cons]
    exact foldl_max_le as (max c a) b (max_le hc (hl a (List.mem_cons_self a as)))
      (fun x hx => hl x (List.mem_cons_of_mem _ hx))

/-- Every element is below the maximum fold. -/
theorem mem_le_foldl_max : ∀ (l : List Int) (c x : Int), x ∈ l → x ≤ l.foldl max c
  | [], _, _, h => absurd h (List.not_mem_nil _)
  | a :: as, c, x, h => by
    simp only [List.foldl_cons]
    rcases List.mem_cons.mp h with rfl | h
    · exact le_trans (le_max_right c x) (le_foldl_max as (max c x))
    · exact mem_le_foldl_max as (max c a) x h

/-- Membership in a consecutive order list is an interval. -/
theorem mem_seqOrders (k : Int) (n : Nat) (x : Int) :
    x ∈ seqOrders k n ↔ k ≤ x ∧ x < k + n := by
  induction n generalizing k with
  | zero =>
    simp only [seqOrders]
    constructor
    · intro h
      exact absurd h (List.not_mem_nil x)
    · intro h
      exact absurd h (by omega)
  | succ m ih =>
    simp [seqOrders, ih]
    omega

/-- Appending the next order extends a consecutive order list. -/
theorem seqOrders_snoc (k : Int) (n : Nat) :
    seqOrders k n ++ [k + n] = seqOrders k (n + 1) := by
  induction n generalizing k with
  | zero => simp [seqOrders]
  | succ m ih =>
    simp only [seqOrders, List.cons_append]
    have hc : k + ((m : Int) + 1) = (k + 1) + m := by ring
    rw [show (((m + 1 : Nat) : Int)) = (m : Int) + 1 from by push_cast; ring, hc, ih]
    rfl

/-- The maximum the source computes over orders 1..n is n. -/
theorem foldl_max_seqOrders (n : Nat) : (seqOrders 1 n).foldl max 0 = n := by
  cases n with
  | zero => rfl
  | succ m =>
    apply le_antisymm
    · apply foldl_max_le
      · omega
      · intro x hx
        rw [mem_seqOrders] at hx
        omega
    · apply mem_le_foldl_max
      rw [mem_seqOrders]
      omega

/-- C4 (amended): a successful reorder leaves the non-deleted options
numbered sequentially from one, and an insert into a form state without
deletion intents whose orders already run 1..n keeps the numbering
sequential, now 1..n+1; a remove renumbers nothing. -/
theorem renumber_after_insert_and_reorder :
    (∀ (f : EditPollFormData) (i j : Nat) (g : EditPollFormData),
      reorderOptions f i j = some g →
        ((g.options.filter fun o => !o.isDeleted).map fun o => o.option_order) =
          seqOrders 1 (g.options.filter fun o => !o.isDeleted).length) ∧
    (∀ (f : EditPollFormData) (t : String) (n : Nat),
      (∀ o ∈ f.options, o.isDeleted = false) →
      (f.options.map fun o => o.option_order) = seqOrders 1 n →
        (((addNewOption f t).options.filter fun o => !o.isDeleted).map
            fun o => o.option_order) = seqOrders 1 (n + 1)) := by
  constructor
  · intro f i j g hr
    have hnd := reordered_no_deleted f i j g hr
    have hfe : (g.options.filter fun o => !o.isDeleted) = g.options :=
      List.filter_eq_self.mpr (fun o ho => by simp [hnd o ho])
    rw [hfe]
    obtain ⟨a, hgi, hopts⟩ := reorderOptions_inv f i j g hr
    rw [hopts, renumberFrom_orders, renumberFrom_length]
  · intro f t n hnodel hseq
    have hmax : jsMaxOrder f.options = n := by
      unfold jsMaxOrder
      rw [hseq]
      exact foldl_max_seqOrders n
    have hfilter : ((addNewOption f t).options.filter fun o => !o.isDeleted) =
        (addNewOption f t).options := by
      apply List.filter_eq_self.mpr
      intro o ho
      simp only [addNewOption, List.mem_append, List.mem_singleton] at ho
      rcases ho with ho | rfl
      · simp [hnodel o ho]
      · simp
    rw [hfilter]
    show ((f.options ++ [({ id := none, option_text := t, option_order := jsMaxOrder f.options + 1, isNew := true, isDeleted := false } : EditPollOptionFormData)]).map fun o => o.option_order) = seqOrders 1 (n + 1)
    rw [List.map_append, hseq, hmax]
    simp only [List.map_cons, List.map_nil]
    rw [show ((n : Int) + 1) = 1 + (n : Int) from by ring]
    exact seqOrders_snoc 1 n

/-- C4 counterexample: removing the first of two live, sequentially numbered
existing options leaves the remaining non-deleted option numbered 2, not
renumbered from 1. -/
theorem removeOption_no_renumber_cex :
    ((demoForm.options.filter fun o => !o.isDeleted).map fun o => o.option_order) =
      seqOrders 1 2 ∧
    Option.map (fun g => (g.options.filter fun o => !o.isDeleted).map fun o => o.option_order)
      (removeOption demoForm 0) = some [2] ∧
    ([2] : List Int) ≠ seqOrders 1 1 := by
  decide

/-- C2 witness: reordering the two live options of demoForm from index 0 to
index 1 is in bounds and satisfies the reorder specification. -/
theorem reorder_demo_witness :
    0 < (demoForm.options.filter fun o => !o.isDeleted).length ∧
    1 < (demoForm.options.filter fun o => !o.isDeleted).length ∧
    (∃ g, reorderOptions demoForm 0 1 = some g ∧
      g.options.map optionContent =
        (movedTo (demoForm.options.filter fun o => !o.isDeleted) 0 1).map optionContent ∧
      (g.options.map fun o => o.option_order) =
        seqOrders 1 (demoForm.options.filter fun o => !o.isDeleted).length ∧
      g.title = demoForm.title ∧ g.description = demoForm.description ∧
      g.category = demoForm.category ∧ g.is_active = demoForm.is_active ∧
      g.allow_multiple_votes = demoForm.allow_multiple_votes ∧
      g.is_anonymous = demoForm.is_anonymous ∧ g.expires_at = demoForm.expires_at) :=
  ⟨by decide, by decide, reorderOptions_spec demoForm 0 1 (by decide) (by decide)⟩

/-- C3 witness: demoForm holds a deletion intent, and reordering it to
demoReordered empties the toDelete list that was non-empty before. -/
theorem reorder_demo_deletion_witness :
    (∃ o ∈ demoForm.options, o.isNew = false ∧ o.isDeleted = true ∧ idTruthy o.id = true) ∧
    ((editFormToUpdate demoForm).optionUpdates.toDelete ≠ [] ∧
      (∀ o ∈ demoReordered.options, o.isDeleted = false) ∧
      (editFormToUpdate demoReordered).optionUpdates.toDelete = []) :=
  ⟨by decide, reorderOptions_drops_deletions demoForm 0 1 demoReordered (by decide) (by decide)⟩

/-- Stable insertion permutes to consing the element. -/
theorem insertSorted_perm {α : Type*} (le : α → α → Bool) (a : α) (l : List α) :
    (insertSorted le a l).Perm (a :: l) := by
  induction l with
  | nil => exact List.Perm.refl _
  | cons b bs ih =>
    simp only [insertSorted]
    split
    · exact List.Perm.trans (List.Perm.cons b ih) (List.Perm.swap a b bs)
    · exact List.Perm.refl _

/-- The insertion-fold permutes to the accumulator followed by the input. -/
theorem stableSortAux_perm {α : Type*} (le : α → α → Bool) :
    ∀ (l acc : List α), (stableSortAux le acc l).Perm (acc ++ l)
  | [], acc => by simp [stableSortAux]
  | x :: xs, acc => by
    simp only [stableSortAux]
    refine List.Perm.trans (stableSortAux_perm le xs (insertSorted le x acc)) ?_
    refine List.Perm.trans (List.Perm.append_right xs (insertSorted_perm le x acc)) ?_
    exact List.perm_middle.symm

/-- Sorting permutes: the sorted options are exactly the input options. -/
theorem stableSort_perm {α : Type*} (le : α → α → Bool) (l : List α) :
    (stableSort le l).Perm l := by
  simpa using stableSortAux_perm le l []

/-- Trimming an optional field defaulted to the empty string gives the
normalized optional value, provided a present value is trim-invariant. -/
theorem trim_getD_empty (x : Option String) (hx : jsTrim (x.getD "") = x.getD "") :
    (if jsTrim (x.getD "") = "" then none else some (jsTrim (x.getD ""))) =
      normalizeOpt x := by
  cases x with
  | none => rfl
  | some d =>
    show (if jsTrim d = "" then none else some (jsTrim d)) = if d = "" then none else some d
    rw [show jsTrim d = d from hx]

/-- A filter that rejects every tagged existing option gives nothing. -/
theorem tagged_filter_nil (L : List EditPollOption) (p : EditPollOptionFormData → Bool)
    (hp : ∀ q : EditPollOption, p { id := some q.id, option_text := q.option_text, option_order := q.option_order, isNew := false, isDeleted := false } = false) :
    (L.map fun o => ({ id := some o.id, option_text := o.option_text, option_order := o.option_order, isNew := false, isDeleted := false } : EditPollOptionFormData)).filter p = [] := by
  induction L with
  | nil => rfl
  | cons q qs ih =>
    simp only [List.map_cons, List.filter_cons]
    rw [if_neg (by simp [hp q])]
    exact ih

/-- The toUpdate pipeline maps the tagged existing options, with non-empty
ids and trim-invariant texts, back to themselves. -/
theorem toUpdate_of_tagged : ∀ L : List EditPollOption,
    (∀ q ∈ L, q.id ≠ "") → (∀ q ∈ L, jsTrim q.option_text = q.option_text) →
    ((L.map fun o => ({ id := some o.id, option_text := o.option_text, option_order := o.option_order, isNew := false, isDeleted := false } : EditPollOptionFormData)).filter
      (fun o => !o.isNew && !o.isDeleted && idTruthy o.id)).map
      (fun o => ({ id := o.id.getD "", option_text := jsTrim o.option_text, option_order := o.option_order } : UpdateOptionData)) =
    L.map fun q => { id := q.id, option_text := q.option_text, option_order := q.option_order }
  | [], _, _ => rfl
  | q :: qs, hids, htr => by
    have hq1 := hids q (List.mem_cons_self q qs)
    have hq2 := htr q (List.mem_cons_self q qs)
    simp only [List.map_cons, List.filter_cons]
    rw [if_pos (by simp [idTruthy, hq1])]
    simp only [List.map_cons, Option.getD_some]
    rw [show jsTrim q.option_text = q.option_text from hq2]
    rw [toUpdate_of_tagged qs (fun x hx => hids x (List.mem_cons_of_mem _ hx))
      (fun x hx => htr x (List.mem_cons_of_mem _ hx))]

/-- C1 (amended): for a poll whose title, description, category and option
texts are unchanged by trimming and whose option ids are non-empty, the
round trip of editFormToUpdate after pollToEditForm preserves every poll
field, with null and the empty string identified on the optional text
fields and the expiry instant unchanged; toUpdate lists exactly the poll
options with id, text and order unchanged, and toCreate and toDelete are
empty. -/
theorem pollToEditForm_roundTrip (p : EditPollData)
    (htitle : jsTrim p.title = p.title)
    (hdesc : jsTrim (p.description.getD "") = p.description.getD "")
    (hcat : jsTrim (p.category.getD "") = p.category.getD "")
    (hopts : ∀ o ∈ p.poll_options, jsTrim o.option_text = o.option_text ∧ o.id ≠ "") :
    (editFormToUpdate (pollToEditForm p)).pollUpdate.title = p.title ∧
    (editFormToUpdate (pollToEditForm p)).pollUpdate.description = normalizeOpt p.description ∧
    (editFormToUpdate (pollToEditForm p)).pollUpdate.category = normalizeOpt p.category ∧
    (editFormToUpdate (pollToEditForm p)).pollUpdate.is_active = p.is_active ∧
    (editFormToUpdate (pollToEditForm p)).pollUpdate.allow_multiple_votes =
      p.allow_multiple_votes ∧
    (editFormToUpdate (pollToEditForm p)).pollUpdate.is_anonymous = p.is_anonymous ∧
    (editFormToUpdate (pollToEditForm p)).pollUpdate.expires_at = p.expires_at ∧
    ((editFormToUpdate (pollToEditForm p)).optionUpdates.toUpdate).Perm
      (p.poll_options.map fun o =>
        { id := o.id, option_text := o.option_text, option_order := o.option_order }) ∧
    (editFormToUpdate (pollToEditForm p)).optionUpdates.toCreate = [] ∧
    (editFormToUpdate (pollToEditForm p)).optionUpdates.toDelete = [] := by
  have hperm : (sortByOrder p.poll_options).Perm p.poll_options := by
    unfold sortByOrder
    exact stableSort_perm _ _
  refine ⟨htitle, trim_getD_empty p.description hdesc, trim_getD_empty p.category hcat,
    rfl, rfl, rfl, rfl, ?_, ?_, ?_⟩
  · have hup : (editFormToUpdate (pollToEditForm p)).optionUpdates.toUpdate =
        (sortByOrder p.poll_options).map fun q => ({ id := q.id, option_text := q.option_text, option_order := q.option_order } : UpdateOptionData) :=
      toUpdate_of_tagged (sortByOrder p.poll_options)
        (fun q hq => (hopts q (hperm.subset hq)).2)
        (fun q hq => (hopts q (hperm.subset hq)).1)
    rw [hup]
    exact hperm.map _
  · have h1 := tagged_filter_nil (sortByOrder p.poll_options)
      (fun o => o.isNew && !o.isDeleted) (fun q => by simp)
    exact (congrArg (List.map fun o => ({ option_text := jsTrim o.option_text, option_order := o.option_order } : CreateOptionData)) h1).trans rfl
  · have h2 := tagged_filter_nil (sortByOrder p.poll_options)
      (fun o => o.isDeleted && idTruthy o.id) (fun q => by simp)
    exact (congrArg (List.map fun o => o.id.getD "") h2).trans rfl

/-- C1 counterexample: a poll whose title carries outer whitespace and whose
only option has the empty id. The round trip changes the title and loses
the option from toUpdate, so the claimed preservation fails as stated. -/
theorem roundTrip_counterexample :
    (editFormToUpdate (pollToEditForm c1Poll)).pollUpdate.title ≠ c1Poll.title ∧
    (editFormToUpdate (pollToEditForm c1Poll)).optionUpdates.toUpdate = [] ∧
    c1Poll.poll_options.length = 1 := by
  decide

/-- C1 witness: the clean concrete poll satisfies the trim-invariance and
id hypotheses, and its round trip preserves everything as the amended
claim states. -/
theorem roundTrip_witness :
    jsTrim c1GoodPoll.title = c1GoodPoll.title ∧
    jsTrim (c1GoodPoll.description.getD "") = c1GoodPoll.description.getD "" ∧
    jsTrim (c1GoodPoll.category.getD "") = c1GoodPoll.category.getD "" ∧
    (∀ o ∈ c1GoodPoll.poll_options, jsTrim o.option_text = o.option_text ∧ o.id ≠ "") ∧
    ((editFormToUpdate (pollToEditForm c1GoodPoll)).pollUpdate.title = c1GoodPoll.title ∧
    (editFormToUpdate (pollToEditForm c1GoodPoll)).pollUpdate.description =
      normalizeOpt c1GoodPoll.description ∧
    (editFormToUpdate (pollToEditForm c1GoodPoll)).pollUpdate.category =
      normalizeOpt c1GoodPoll.category ∧
    (editFormToUpdate (pollToEditForm c1GoodPoll)).pollUpdate.is_active =
      c1GoodPoll.is_active ∧
    (editFormToUpdate (pollToEditForm c1GoodPoll)).pollUpdate.allow_multiple_votes =
      c1GoodPoll.allow_multiple_votes ∧
    (editFormToUpdate (pollToEditForm c1GoodPoll)).pollUpdate.is_anonymous =
      c1GoodPoll.is_anonymous ∧
    (editFormToUpdate (pollToEditForm c1GoodPoll)).pollUpdate.expires_at =
      c1GoodPoll.expires_at ∧
    ((editFormToUpdate (pollToEditForm c1GoodPoll)).optionUpdates.toUpdate).Perm
      (c1GoodPoll.poll_options.map fun o =>
        { id := o.id, option_text := o.option_text, option_order := o.option_order }) ∧
    (editFormToUpdate (pollToEditForm c1GoodPoll)).optionUpdates.toCreate = [] ∧
    (editFormToUpdate (pollToEditForm c1GoodPoll)).optionUpdates.toDelete = []) :=
  ⟨by decide, by decide, by decide, by decide,
    pollToEditForm_roundTrip c1GoodPoll (by decide) (by decide) (by decide) (by decide)⟩
